import Mathlib

/-!
Verification of `links_to_notes.py` (Links to Notes for Obsidian v2.0).

The Python source is shallowly embedded: pure string manipulation is
translated to executable Lean functions over `String`/`List Char`; the
network, the HTML parser (BeautifulSoup), the readability extractor,
html2text, dateparser, json.loads and python-slugify are external
collaborators, modelled by oracle parameters or by small executable
models of the fragment of their behaviour the script relies on (each
such model is marked in its doc comment).  Machine I/O (file writing,
printing) is outside the embedding; the filesystem is modelled as the
list of already-written relative paths.
-/

namespace LinksToNotes

/-! ## Python string primitives -/

/-- The whitespace characters of Python's `str.strip` / regex `\s`,
restricted to ASCII: space, tab, newline, carriage return, vertical tab,
form feed. -/
def isPySpace (c : Char) : Bool :=
  c == ' ' || c == '\t' || c == '\n' || c == '\r' || c == '\x0b' || c == '\x0c'

/-- `str.strip()` on the character list: drop leading and trailing
whitespace. -/
def stripList (l : List Char) : List Char :=
  ((l.dropWhile isPySpace).reverse.dropWhile isPySpace).reverse

/-- Python `str.strip()` (ASCII whitespace fragment). -/
def pyStrip (s : String) : String := ⟨stripList s.data⟩

/-- Python `str.lower()`, restricted to ASCII letters (`Char.toLower`
only maps basic latin letters). -/
def pyLower (s : String) : String := ⟨s.data.map Char.toLower⟩

/-- Truthiness of a Python value that is either absent (`None`) or a
string: `None` and `""` are falsy. -/
def pyTruthy : Option String → Bool
  | none => false
  | some s => s ≠ ""

/-- A character matched by the regex class `\w` (ASCII fragment):
letters, digits, underscore. -/
def isWordChar (c : Char) : Bool := c.isAlphanum || c == '_'

/-- Count the maximal runs of `\w` characters: the length of
`re.findall(r"\w+", s)`. `inWord` records whether the previous character
was a word character. -/
def countWordsGo : List Char → Bool → Nat
  | [], _ => 0
  | c :: cs, inWord =>
    if isWordChar c then
      if inWord then countWordsGo cs true else 1 + countWordsGo cs true
    else countWordsGo cs false

/-- `len(re.findall(r"\w+", s))`. -/
def countWords (s : String) : Nat := countWordsGo s.data false

/-- Python `round(wc / 225)`: nearest integer.  Python rounds ties to
even, but a tie would need `wc / 225 = k + 1/2`, i.e. `2 * wc = 225 * (2k+1)`,
impossible by parity, so round-half-up agrees with Python here. -/
def pyRoundDiv225 (wc : Nat) : Nat := (2 * wc + 225) / 450

/-- `re.sub(r"\s+", " ", s)`: squeeze every maximal whitespace run to a
single space.  `prev` records whether the previous character was
whitespace. -/
def squeezeWsGo : List Char → Bool → List Char
  | [], _ => []
  | c :: cs, prev =>
    if isPySpace c then
      if prev then squeezeWsGo cs true else ' ' :: squeezeWsGo cs true
    else c :: squeezeWsGo cs false

/-- `re.sub(r"\s+", " ", s).strip()` — the author-name cleanup. -/
def pyCollapseWs (s : String) : String := pyStrip ⟨squeezeWsGo s.data false⟩

/-- Zero-pad a number to two digits (`strftime("%m")`). -/
def pad2 (n : Nat) : String := if n < 10 then "0" ++ toString n else toString n

/-- Zero-pad a number to four digits (`strftime("%Y")`). -/
def pad4 (n : Nat) : String :=
  if n < 10 then "000" ++ toString n
  else if n < 100 then "00" ++ toString n
  else if n < 1000 then "0" ++ toString n
  else toString n

def digitVal (c : Char) : Nat := c.toNat - 48

/-- Modelled external collaborator: `dateparser.parse`, restricted to
strings beginning with an ISO `YYYY-MM-DD` date (the only shape this
pipeline feeds it after normalization).  Yields `(year, month, day)`, or
`none` when the prefix is not a plausible ISO date. -/
def dateparse (s : String) : Option (Nat × Nat × Nat) :=
  match s.data with
  | y1 :: y2 :: y3 :: y4 :: '-' :: m1 :: m2 :: '-' :: d1 :: d2 :: rest =>
    if y1.isDigit && y2.isDigit && y3.isDigit && y4.isDigit &&
       m1.isDigit && m2.isDigit && d1.isDigit && d2.isDigit then
      let y := 1000 * digitVal y1 + 100 * digitVal y2 + 10 * digitVal y3 + digitVal y4
      let m := 10 * digitVal m1 + digitVal m2
      let d := 10 * digitVal d1 + digitVal d2
      if 1 ≤ m && m ≤ 12 && 1 ≤ d && d ≤ 31 &&
         (rest = [] || rest.head? = some 'T' || rest.head? = some ' ') then
        some (y, m, d)
      else none
    else none
  | _ => none

/-- `date.isoformat()`. -/
def isoFormat (ymd : Nat × Nat × Nat) : String :=
  pad4 ymd.1 ++ "-" ++ pad2 ymd.2.1 ++ "-" ++ pad2 ymd.2.2

/-- Collapse runs of `'-'` to a single `'-'` (slugify's separator
collapsing). -/
def collapseDashGo : List Char → Bool → List Char
  | [], _ => []
  | c :: cs, prev =>
    if c == '-' then
      if prev then collapseDashGo cs true else '-' :: collapseDashGo cs true
    else c :: collapseDashGo cs false

/-- Modelled external collaborator: `slugify.slugify`, restricted to
ASCII input: lowercase, replace every run of non-alphanumeric characters
by a single `-`, and strip leading/trailing `-`. -/
def slugify (s : String) : String :=
  let mapped := s.data.map (fun c =>
    let c := c.toLower
    if c.isAlphanum then c else '-')
  ⟨((collapseDashGo mapped false).dropWhile (· == '-')).reverse.dropWhile (· == '-') |>.reverse⟩

/-! ## Data model

`Meta` mirrors the `meta` dict built by `extract_meta` /
`create_fallback_note`.  Optional fields model keys holding Python
`None`; `status` is `none` on extractor-produced records, which carry no
`"status"` key at all. -/

structure Meta where
  title : String
  author : Option String
  published_date : Option String
  summary : Option String
  source_url : String
  word_count : Nat
  reading_time_min : Nat
  tags : List String
  status : Option String
  deriving Repr, DecidableEq

/-- The `{"meta": ..., "content_md": ...}` dict returned by
`extract_meta` and `create_fallback_note`. -/
structure NoteData where
  meta : Meta
  content_md : String
  deriving Repr, DecidableEq

/-- The `csv_metadata` dict built by `read_urls_from_csv_enhanced`.
A field is `none` when the corresponding key is absent from the dict
(it never is for dicts produced by the reader, which always stores all
three keys). -/
structure CsvMeta where
  title : Option String
  description : Option String
  tags : List String
  deriving Repr, DecidableEq

/-- The `"author"` value found in a JSON-LD block, as `json.loads`
would give it: a dict (only its optional `"name"` key matters to the
code; a non-string name is modelled by its `str()` image), a list, or
any other JSON shape. -/
inductive LdAuthorVal where
  | dict (name : Option String)
  | list (elems : List LdAuthorVal)
  | other
  deriving Repr

/-- One dict candidate inside a JSON-LD payload, restricted to the two
keys the code reads. -/
structure LdDict where
  author : Option LdAuthorVal
  datePublished : Option String
  deriving Repr

/-- The parse of one `<script type="application/ld+json">` block:
`none` models a `json.loads` failure (silently skipped); a parsed
payload is the candidate list `data if isinstance(data, list) else
[data]`, where a non-dict candidate is `none`. -/
abbrev LdScript := Option (List (Option LdDict))

/-- What BeautifulSoup / readability / html2text yield on a page: the
attribute values the extractor reads (`none` = tag or attribute
absent) and the externally-computed readable content.  These parsers
are external collaborators; their output is the extractor's input. -/
structure PageSignals where
  canonicalHref : Option String
  ogUrlContent : Option String
  ogTitleContent : Option String
  docTitle : Option String
  ldScripts : List LdScript
  metaAuthorName : Option String
  metaAuthorArticle : Option String
  metaPubTime : Option String
  metaDateName : Option String
  metaDescName : Option String
  ogDescContent : Option String
  contentText : String
  contentMd : String
  deriving Repr

/-- The `closest` dict of the Wayback availability response:
`available` is the truthiness of `closest.get('available')`; `url` is
`none` when the `'url'` key is missing (the `closest['url']` KeyError
is swallowed by the bare `except`). -/
structure WaybackClosest where
  available : Bool
  url : Option String
  deriving Repr, DecidableEq

/-- The parsed availability JSON: `archived_snapshots` is `none` when
`data.get('archived_snapshots')` is falsy (key missing, `None`, or an
empty dict); `some none` when it is truthy but `get('closest')` is
falsy; `some (some c)` for a truthy closest dict. -/
structure AvailJson where
  archived_snapshots : Option (Option WaybackClosest)
  deriving Repr, DecidableEq

/-- Outcome of the live fetch *and* in-try extraction, as seen by the
`try` block of `process_url_with_fallbacks`:
* `success`: `fetch_url` returned, carrying the parsed page and the
  final (post-redirect) `resp.url`;
* `httpError s`: `raise_for_status` raised `requests.exceptions.HTTPError`
  with `e.response.status_code = s` (statuses outside the retry
  forcelist `{429,500,502,503,504}`; a forcelist status that exhausts
  the retry budget surfaces as `RetryError`, which is *not* an
  `HTTPError` — that case is `otherError`);
* `otherError`: any other exception in the `try` block (connection
  error, timeout, `RetryError`, ...). -/
inductive FetchOutcome where
  | success (page : PageSignals) (finalUrl : String)
  | httpError (status : Nat)
  | otherError
  deriving Repr

/-- An exception propagating out of `process_url_with_fallbacks`: the
re-raised non-403 `HTTPError`. -/
inductive ProcError where
  | httpError (status : Nat)
  deriving Repr, DecidableEq

/-- One data row of the CSV, restricted to the four columns the reader
uses.  A missing trailing cell (csv's `None` restval) is identified
with the empty cell: the code sends both through the same falsiness
tests. -/
structure CsvRow where
  url : String
  tags : String
  title : String
  description : String
  deriving Repr, DecidableEq

/-- Which optional columns the CSV header declares (`url` is required:
its absence raises before any row is read, outside this per-row
model). -/
structure CsvCols where
  hasTags : Bool
  hasTitle : Bool
  hasDesc : Bool
  deriving Repr, DecidableEq

/-! ## The embedded source functions -/

/-- The author-name lookup applied to one JSON-LD `author` value:
`a.get("name")` for a dict, `a[0].get("name")` for a nonempty list
whose head is a dict; a falsy (absent or empty) name assigns nothing.
The assigned value is `str(name).strip()`, which may itself be `""`. -/
def ldAuthorName : LdAuthorVal → Option String
  | .dict (some name) => if name = "" then none else some (pyStrip name)
  | .dict none => none
  | .list (.dict (some name) :: _) => if name = "" then none else some (pyStrip name)
  | .list _ => none
  | .other => none

/-- The body of the JSON-LD candidate loop in `extract_meta`:
`author` wins first (`if a and not author`), `datePublished` wins first
(`if not published_date and d.get("datePublished")`), with Python
falsiness (`some ""` counts as unset). -/
def scanLdCands : List (Option LdDict) → Option String × Option String →
    Option String × Option String
  | [], acc => acc
  | none :: rest, acc => scanLdCands rest acc
  | some d :: rest, (author, pub) =>
    let author : Option String :=
      if !pyTruthy author then
        match d.author with
        | none => author
        | some a =>
          match ldAuthorName a with
          | none => author
          | some s => some s
      else author
    let pub : Option String :=
      if !pyTruthy pub && pyTruthy d.datePublished then some (pyStrip (d.datePublished.getD ""))
      else pub
    scanLdCands rest (author, pub)

/-- The outer JSON-LD loop: a script whose `json.loads` failed
(`none`) is skipped by the bare `except`. -/
def scanLdScripts : List LdScript → Option String × Option String →
    Option String × Option String
  | [], acc => acc
  | none :: rest, acc => scanLdScripts rest acc
  | some cands :: rest, acc => scanLdScripts rest (scanLdCands cands acc)

/-- `extract_meta(html, url)`: the layered metadata lookup over the
parsed page signals.  BeautifulSoup, readability and html2text are
external parsers; their outputs are the fields of `PageSignals`. -/
def extract_meta (p : PageSignals) (url : String) : NoteData :=
  -- URL canónica
  let canonical : Option String :=
    if pyTruthy p.canonicalHref then some (pyStrip (p.canonicalHref.getD "")) else none
  let canonical : Option String :=
    if pyTruthy p.ogUrlContent then
      let c := pyStrip (p.ogUrlContent.getD "")
      if c = "" then canonical else some c
    else canonical
  -- Título
  let title : Option String :=
    if pyTruthy p.ogTitleContent then some (pyStrip (p.ogTitleContent.getD "")) else none
  let title : Option String :=
    if !pyTruthy title && pyTruthy p.docTitle then some (pyStrip (p.docTitle.getD ""))
    else title
  -- Autor y fecha (JSON-LD primero)
  let scanned := scanLdScripts p.ldScripts (none, none)
  let author : Option String := scanned.1
  let published_date : Option String := scanned.2
  -- Fallback para autor
  let author : Option String :=
    if !pyTruthy author then
      if pyTruthy p.metaAuthorName then some (pyStrip (p.metaAuthorName.getD ""))
      else if pyTruthy p.metaAuthorArticle then some (pyStrip (p.metaAuthorArticle.getD ""))
      else author
    else author
  -- Fallback para fecha
  let published_date : Option String :=
    if !pyTruthy published_date then
      if pyTruthy p.metaPubTime then some (pyStrip (p.metaPubTime.getD ""))
      else if pyTruthy p.metaDateName then some (pyStrip (p.metaDateName.getD ""))
      else published_date
    else published_date
  -- Limpiar autor
  let author : Option String :=
    if pyTruthy author then some (pyCollapseWs (author.getD "")) else author
  -- Normalizar fecha
  let published_dt : Option (Nat × Nat × Nat) :=
    if pyTruthy published_date then dateparse (published_date.getD "") else none
  let published_date_norm : Option String := published_dt.map isoFormat
  -- Descripción
  let description : Option String :=
    if pyTruthy p.metaDescName then some (pyStrip (p.metaDescName.getD ""))
    else if pyTruthy p.ogDescContent then some (pyStrip (p.ogDescContent.getD ""))
    else none
  -- Estadísticas
  let word_count := countWords p.contentText
  let reading_time_min := max 1 (pyRoundDiv225 word_count)
  { meta :=
      { title := if pyTruthy title then title.getD "" else url
        author := author
        published_date := published_date_norm
        summary := description
        source_url := if pyTruthy canonical then canonical.getD "" else url
        word_count := word_count
        reading_time_min := reading_time_min
        tags := []
        status := none }
    content_md := p.contentMd }

/-- `try_wayback_machine(url)`: query the availability endpoint (its
parsed-JSON outcome is the oracle `availResp`; `.error` covers an
unreachable endpoint and a `resp.json()` failure) and fetch the
reported snapshot (`fetchSnap` returns the body; `.error` covers a
network failure and `raise_for_status`).  The bare `except` maps every
failure to `none`. -/
def try_wayback_machine {α : Type} (availResp : Except Unit AvailJson)
    (fetchSnap : String → Except Unit α) : Option (α × String) :=
  match availResp with
  | .error _ => none
  | .ok data =>
    match data.archived_snapshots with
    | none => none
    | some closest =>
      match closest with
      | none => none
      | some c =>
        if !c.available then none
        else
          match c.url with
          | none => none
          | some archived_url =>
            match fetchSnap archived_url with
            | .error _ => none
            | .ok body => some (body, archived_url)

/-- `create_fallback_note(url, csv_metadata)`. -/
def create_fallback_note (url : String) (csv_metadata : CsvMeta) : NoteData :=
  { meta :=
      { title := csv_metadata.title.getD url
        author := none
        published_date := none
        summary := some (csv_metadata.description.getD "")
        source_url := url
        word_count := 0
        reading_time_min := 0
        tags := csv_metadata.tags
        status := some "unavailable" }
    content_md := "**CONTENIDO NO DISPONIBLE**\n\nEsta URL no pudo ser accedida automaticamente.\n\nVisita manualmente: [" ++ url ++ "](" ++ url ++ ")\n" }

/-- The loop of `normalize_tags`: `uniq` is the result accumulator,
`seen` the membership set (always holding exactly the elements of
`uniq`). -/
def normTagsGo : List String → List String → List String → List String
  | [], uniq, _ => uniq
  | t :: ts, uniq, seen =>
    let t := pyStrip t
    if t = "" then normTagsGo ts uniq seen
    else if t ∈ seen then normTagsGo ts uniq seen
    else normTagsGo ts (uniq ++ [t]) (t :: seen)

/-- `normalize_tags(tags)`: strip, drop empties, deduplicate keeping
first occurrences. -/
def normalize_tags (tags : List String) : List String := normTagsGo tags [] []

def MAX_FILENAME_LENGTH : Nat := 200
def MAX_TITLE_LENGTH : Nat := 100

/-- The collision loop of `decide_out_path` (`while True: i += 1`),
with enough fuel to cover the finite directory: it returns the first
`<folder>/<base>-<i>.md` not yet on disk. -/
def findFree (files : List String) (folder base : String) : Nat → Nat → Option String
  | 0, _ => none
  | fuel + 1, i =>
    let candidate := folder ++ "/" ++ base ++ "-" ++ toString i ++ ".md"
    if candidate ∈ files then findFree files folder base fuel (i + 1)
    else some candidate

/-- `decide_out_path(out_dir, meta)`: paths are relative to `out_dir`;
`files` is the directory contents (`Path.exists`), `now` the
`datetime.utcnow()` year and month.  When `published_date` is falsy the
code round-trips `utcnow().isoformat()` through `dateparser`, yielding
`utcnow()` again.  `mkdir` is I/O and outside the embedding. -/
def decide_out_path (now : Nat × Nat) (files : List String) (meta : Meta) : Option String :=
  let dt : Nat × Nat :=
    if pyTruthy meta.published_date then
      match dateparse (meta.published_date.getD "") with
      | some (y, m, _) => (y, m)
      | none => now
    else now
  let folder := pad4 dt.1 ++ "/" ++ pad2 dt.2
  let title := if meta.title = "" then "nota" else meta.title
  let title := if title.length > MAX_TITLE_LENGTH then title.take MAX_TITLE_LENGTH else title
  let base := slugify title
  let base := if base.length > MAX_FILENAME_LENGTH then base.take MAX_FILENAME_LENGTH else base
  let base := if base = "" || base = "-" then "nota" else base
  let out := folder ++ "/" ++ base ++ ".md"
  if out ∈ files then findFree files folder base (files.length + 1) 2
  else some out

/-- `process_url_with_fallbacks(url, tags, csv_row, out_dir, template_path, sleep_s)`.
The live fetch and the in-`try` extraction are summarized by
`fetchRes`; the Wayback oracles are passed through to
`try_wayback_machine`.  Rendering (`render_markdown`), the file write
and its `OSError` long-filename retry, and `time.sleep` are I/O outside
the embedding; the path decision is kept.  A non-403 `HTTPError` is
re-raised (`else: raise`), modelled by the `Except.error` result. -/
def process_url_with_fallbacks
    (fetchRes : FetchOutcome)
    (availResp : Except Unit AvailJson)
    (fetchSnap : String → Except Unit PageSignals)
    (url : String) (tags : List String) (csv_row : CsvMeta)
    (now : Nat × Nat) (files : List String) :
    Except ProcError (Option String × String) :=
  let step : Except ProcError (NoteData × String) :=
    match fetchRes with
    | .success page finalUrl => .ok (extract_meta page finalUrl, "success")
    | .httpError status =>
      if status = 403 then
        match try_wayback_machine availResp fetchSnap with
        | some (page, _archived_url) =>
          let data := extract_meta page url
          .ok ({ data with meta := { data.meta with source_url := url } }, "archived")
        | none => .ok (create_fallback_note url csv_row, "fallback")
      else .error (.httpError status)
    | .otherError => .ok (create_fallback_note url csv_row, "fallback")
  match step with
  | .error e => .error e
  | .ok (data, status) =>
    -- Combinar tags: extraídos + CSV
    let meta := data.meta
    let all_tags := meta.tags ++ tags ++ csv_row.tags
    let norm_tags := all_tags.map (fun t => pyLower (pyStrip t))
    let meta := { meta with tags := normalize_tags norm_tags }
    let out_path := decide_out_path now files meta
    .ok (out_path, status)

/-- The per-item bucketing in `main`: a normal return is filed under
its status, an exception under `results["failed"]`. -/
def mainProcessItem (r : Except ProcError (Option String × String)) : String :=
  match r with
  | .ok (_, status) => status
  | .error _ => "failed"

/-- Scan a JSON string literal (escape-free fragment) up to its closing
quote, returning it together with the unconsumed input. -/
def scanJsonString : List Char → Option (String × List Char)
  | [] => none
  | '"' :: rest => some ("", rest)
  | c :: rest =>
    match scanJsonString rest with
    | some (s, r) => some (⟨c :: s.data⟩, r)
    | none => none

def jsonArrItems : Nat → List Char → Option (List String)
  | 0, _ => none
  | fuel + 1, cs =>
    match cs.dropWhile isPySpace with
    | ']' :: rest => if rest.dropWhile isPySpace = [] then some [] else none
    | '"' :: rest =>
      match scanJsonString rest with
      | none => none
      | some (s, r) =>
        match r.dropWhile isPySpace with
        | ',' :: r2 =>
          match jsonArrItems fuel r2 with
          | some l => some (s :: l)
          | none => none
        | ']' :: r2 => if r2.dropWhile isPySpace = [] then some [s] else none
        | _ => none
    | _ => none

/-- Modelled external collaborator: `json.loads`, restricted to flat
arrays of escape-free string literals (the documented shape of the tags
cell); anything else is a parse failure (`none`). -/
def jsonStringArray (s : String) : Option (List String) :=
  match s.data with
  | '[' :: rest => jsonArrItems s.data.length rest
  | _ => none

/-- The tags-cell parsing of `read_urls_from_csv_enhanced`: a JSON
array literal if the stripped cell is bracketed and parses as a list
(`except: pass` otherwise), else a `,`/`;`/`|`-separated string. -/
def parse_tags (cols : CsvCols) (row : CsvRow) : List String :=
  let tags_str := if cols.hasTags then row.tags else ""
  let rawt := pyStrip tags_str
  let tags : List String :=
    if rawt.startsWith "[" && rawt.endsWith "]" then
      match jsonStringArray rawt with
      | some arr => (arr.map pyStrip).filter (fun t => t ≠ "")
      | none => []
    else []
  if tags = [] && rawt ≠ "" then
    ((rawt.split (fun c => c == ',' || c == ';' || c == '|')).map pyStrip).filter
      (fun t => t ≠ "")
  else tags

/-- The row loop of `read_urls_from_csv_enhanced` (delimiter sniffing
and the required-`url`-header check happen before it; a CSV without a
`url` column raises there, before any row is read).  A row whose `url`
cell strips to `""` is skipped; kept rows yield
`(url, normalize_tags(tags), csv_metadata)`, the metadata dict always
carrying all three keys. -/
def read_urls_from_csv_enhanced (cols : CsvCols) :
    List CsvRow → List (String × List String × CsvMeta)
  | [] => []
  | row :: rest =>
    let url := pyStrip row.url
    if url = "" then read_urls_from_csv_enhanced cols rest
    else
      let tags := parse_tags cols row
      let csv_metadata : CsvMeta :=
        { title := some (if cols.hasTitle then row.title else "")
          description := some (if cols.hasDesc then row.description else "")
          tags := tags }
      (url, normalize_tags tags, csv_metadata) :: read_urls_from_csv_enhanced cols rest

/-- First-occurrence deduplication, in the spec's words ("preserving
first-seen order"): keep each string's first occurrence, delete its
later duplicates.  Stated from the spec to compare `normalize_tags`
against. -/
def firstSeenDedup : List String → List String
  | [] => []
  | t :: ts => t :: firstSeenDedup (ts.filter (fun x => x ≠ t))
termination_by l => l.length
decreasing_by
  simp only [List.length_cons]
  exact Nat.lt_succ_of_le (List.length_filter_le _ _)

/-! ## Helper lemmas: stripping, lowercasing -/

theorem dropWhile_head_false {α : Type} (p : α → Bool) (a : α) (t : List α)
    (h : (a :: t).dropWhile p = a :: t) : p a = false := by
  cases hpa : p a with
  | false => rfl
  | true =>
    rw [List.dropWhile_cons_of_pos hpa] at h
    have hle : (t.dropWhile p).length ≤ t.length := (List.dropWhile_sublist p).length_le
    rw [h] at hle
    simp at hle

theorem stripList_decomp (l : List Char) :
    l.dropWhile isPySpace = stripList l ++ ((l.dropWhile isPySpace).reverse.takeWhile isPySpace).reverse := by
  unfold stripList
  conv_lhs => rw [← List.reverse_reverse (l.dropWhile isPySpace),
    ← List.takeWhile_append_dropWhile (p := isPySpace) (l := (l.dropWhile isPySpace).reverse)]
  rw [List.reverse_append]

theorem dropWhile_stripList (l : List Char) :
    (stripList l).dropWhile isPySpace = stripList l := by
  cases h : stripList l with
  | nil => rfl
  | cons a t =>
    have hd : l.dropWhile isPySpace = a :: (t ++ ((l.dropWhile isPySpace).reverse.takeWhile isPySpace).reverse) := by
      have := stripList_decomp l
      rw [h] at this
      simpa using this
    have hida : (l.dropWhile isPySpace).dropWhile isPySpace = l.dropWhile isPySpace :=
      List.dropWhile_idempotent _ _
    rw [hd] at hida
    have hpa : isPySpace a = false := dropWhile_head_false _ _ _ hida
    rw [List.dropWhile_cons_of_neg (by simp [hpa])]

theorem reverse_stripList (l : List Char) :
    (stripList l).reverse = (l.dropWhile isPySpace).reverse.dropWhile isPySpace := by
  unfold stripList
  rw [List.reverse_reverse]

theorem stripList_idem (l : List Char) : stripList (stripList l) = stripList l := by
  calc stripList (stripList l)
      = (((stripList l).dropWhile isPySpace).reverse.dropWhile isPySpace).reverse := rfl
    _ = ((stripList l).reverse.dropWhile isPySpace).reverse := by rw [dropWhile_stripList]
    _ = (((l.dropWhile isPySpace).reverse.dropWhile isPySpace).dropWhile isPySpace).reverse := by
        rw [reverse_stripList]
    _ = ((l.dropWhile isPySpace).reverse.dropWhile isPySpace).reverse := by
        rw [List.dropWhile_idempotent]
    _ = stripList l := by rw [← reverse_stripList, List.reverse_reverse]

theorem pyStrip_idem (s : String) : pyStrip (pyStrip s) = pyStrip s := by
  unfold pyStrip
  rw [show (String.mk (stripList s.data)).data = stripList s.data from rfl, stripList_idem]

theorem mem_stripList {c : Char} {l : List Char} (h : c ∈ stripList l) : c ∈ l := by
  unfold stripList at h
  rw [List.mem_reverse] at h
  have h2 := List.dropWhile_subset isPySpace h
  rw [List.mem_reverse] at h2
  exact List.dropWhile_subset isPySpace h2

theorem toNat_ofNat_valid {n : Nat} (h : n.isValidChar) : (Char.ofNat n).toNat = n := by
  rw [Char.ofNat, dif_pos h]
  rfl

theorem toLower_toLower (c : Char) : c.toLower.toLower = c.toLower := by
  unfold Char.toLower
  by_cases h : c.toNat ≥ 65 ∧ c.toNat ≤ 90
  · rw [if_pos h]
    have hv : (c.toNat + 32).isValidChar := Or.inl (by omega)
    have ht : (Char.ofNat (c.toNat + 32)).toNat = c.toNat + 32 := toNat_ofNat_valid hv
    rw [ht, if_neg (by omega)]
  · rw [if_neg h, if_neg h]

theorem pyLower_data (s : String) : (pyLower s).data = s.data.map Char.toLower := rfl

/-- A string all of whose characters are lowercase images stays fixed
under `pyLower`; stripping preserves that shape. -/
theorem pyLower_pyStrip_pyLower (s : String) :
    pyLower (pyStrip (pyLower s)) = pyStrip (pyLower s) := by
  unfold pyLower pyStrip
  congr 1
  have : ∀ c ∈ stripList (s.data.map Char.toLower), Char.toLower c = c := by
    intro c hc
    have hmem : c ∈ s.data.map Char.toLower := mem_stripList hc
    obtain ⟨d, _, rfl⟩ := List.mem_map.mp hmem
    exact toLower_toLower d
  calc (stripList (String.mk (s.data.map Char.toLower)).data).map Char.toLower
      = (stripList (s.data.map Char.toLower)).map Char.toLower := rfl
    _ = (stripList (s.data.map Char.toLower)).map id := List.map_congr_left this
    _ = stripList (s.data.map Char.toLower) := List.map_id _

/-! ## Helper lemmas: `normalize_tags` -/

/-- The cleansing stage of `normalize_tags`: strip every tag, drop the
entries that strip to nothing. -/
def cleanTags (ts : List String) : List String :=
  (ts.map pyStrip).filter (fun t => t ≠ "")

theorem cleanTags_nil : cleanTags [] = [] := rfl

theorem cleanTags_cons (t : String) (ts : List String) :
    cleanTags (t :: ts) =
      if pyStrip t = "" then cleanTags ts else pyStrip t :: cleanTags ts := by
  unfold cleanTags
  by_cases h : pyStrip t = "" <;> simp [h]

theorem mem_cleanTags {x : String} {ts : List String} (h : x ∈ cleanTags ts) :
    pyStrip x = x ∧ x ≠ "" := by
  unfold cleanTags at h
  rw [List.mem_filter] at h
  obtain ⟨hmem, hne⟩ := h
  obtain ⟨y, _, rfl⟩ := List.mem_map.mp hmem
  exact ⟨pyStrip_idem y, by simpa using hne⟩

theorem firstSeenDedup_nil : firstSeenDedup [] = [] := by
  conv_lhs => rw [firstSeenDedup]

theorem firstSeenDedup_cons (t : String) (ts : List String) :
    firstSeenDedup (t :: ts) = t :: firstSeenDedup (ts.filter (fun x => x ≠ t)) := by
  conv_lhs => rw [firstSeenDedup]

theorem mem_firstSeenDedup_aux (x : String) :
    ∀ (n : Nat) (l : List String), l.length ≤ n → (x ∈ firstSeenDedup l ↔ x ∈ l) := by
  intro n
  induction n with
  | zero =>
    intro l hl
    have : l = [] := List.eq_nil_of_length_eq_zero (Nat.le_zero.mp hl)
    subst this
    simp [firstSeenDedup_nil]
  | succ n ih =>
    intro l hl
    cases l with
    | nil => simp [firstSeenDedup_nil]
    | cons t ts =>
      rw [firstSeenDedup_cons]
      have hlen : (ts.filter (fun x => x ≠ t)).length ≤ n :=
        le_trans (List.length_filter_le _ _) (by simpa using hl)
      rw [List.mem_cons, ih _ hlen, List.mem_filter, List.mem_cons]
      by_cases hx : x = t <;> simp [hx]

theorem mem_firstSeenDedup {x : String} {l : List String} :
    x ∈ firstSeenDedup l ↔ x ∈ l :=
  mem_firstSeenDedup_aux x l.length l le_rfl

theorem nodup_firstSeenDedup_aux :
    ∀ (n : Nat) (l : List String), l.length ≤ n → (firstSeenDedup l).Nodup := by
  intro n
  induction n with
  | zero =>
    intro l hl
    have : l = [] := List.eq_nil_of_length_eq_zero (Nat.le_zero.mp hl)
    subst this
    simp [firstSeenDedup_nil]
  | succ n ih =>
    intro l hl
    cases l with
    | nil => simp [firstSeenDedup_nil]
    | cons t ts =>
      rw [firstSeenDedup_cons]
      have hlen : (ts.filter (fun x => x ≠ t)).length ≤ n :=
        le_trans (List.length_filter_le _ _) (by simpa using hl)
      refine List.nodup_cons.mpr ⟨?_, ih _ hlen⟩
      intro hmem
      have := (List.mem_filter.mp (mem_firstSeenDedup.mp hmem)).2
      simp at this

theorem nodup_firstSeenDedup (l : List String) : (firstSeenDedup l).Nodup :=
  nodup_firstSeenDedup_aux l.length l le_rfl

theorem firstSeenDedup_of_nodup : ∀ {l : List String}, l.Nodup → firstSeenDedup l = l := by
  intro l
  induction l with
  | nil => intro; exact firstSeenDedup_nil
  | cons t ts ih =>
    intro hnd
    rw [firstSeenDedup_cons]
    obtain ⟨hnot, hts⟩ := List.nodup_cons.mp hnd
    have hfe : ts.filter (fun x => x ≠ t) = ts :=
      List.filter_eq_self.mpr (fun a ha => by
        simp only [ne_eq, decide_eq_true_eq]
        exact fun he => hnot (he ▸ ha))
    rw [hfe, ih hts]

/-- Every element of the result of the `normalize_tags` loop — beyond
the accumulator — is stripped and non-empty, the result is duplicate
free, and it keeps first occurrences in order: the loop computes
exactly `firstSeenDedup` of the cleansed input not already seen. -/
theorem normTagsGo_cons (t : String) (ts uniq seen : List String) :
    normTagsGo (t :: ts) uniq seen =
      if pyStrip t = "" then normTagsGo ts uniq seen
      else if pyStrip t ∈ seen then normTagsGo ts uniq seen
      else normTagsGo ts (uniq ++ [pyStrip t]) (pyStrip t :: seen) := rfl

theorem normTagsGo_eq (ts : List String) : ∀ (uniq seen : List String),
    (∀ x, x ∈ seen ↔ x ∈ uniq) →
    normTagsGo ts uniq seen =
      uniq ++ firstSeenDedup ((cleanTags ts).filter (fun x => x ∉ uniq)) := by
  induction ts with
  | nil => intro uniq seen _; simp [normTagsGo, cleanTags_nil, firstSeenDedup_nil]
  | cons t ts ih =>
    intro uniq seen hseen
    rw [normTagsGo_cons]
    by_cases h0 : pyStrip t = ""
    · rw [if_pos h0, ih uniq seen hseen, cleanTags_cons, if_pos h0]
    · rw [if_neg h0]
      by_cases h1 : pyStrip t ∈ seen
      · rw [if_pos h1, ih uniq seen hseen, cleanTags_cons, if_neg h0]
        have huniq : pyStrip t ∈ uniq := (hseen _).mp h1
        congr 2
        rw [List.filter_cons_of_neg (by simp [huniq])]
      · rw [if_neg h1]
        have hnotuniq : pyStrip t ∉ uniq := fun hu => h1 ((hseen _).mpr hu)
        rw [ih (uniq ++ [pyStrip t]) (pyStrip t :: seen)
          (by intro x; simp [List.mem_cons, List.mem_append, hseen x, Or.comm])]
        rw [cleanTags_cons, if_neg h0,
          List.filter_cons_of_pos (by simp [hnotuniq]), firstSeenDedup_cons,
          List.filter_filter]
        rw [List.append_assoc, List.singleton_append]
        congr 3
        apply List.filter_congr
        intro x _
        by_cases hx1 : x = pyStrip t <;> by_cases hx2 : x ∈ uniq <;>
          simp [hx1, hx2, List.mem_append]

/-- `normalize_tags` is exactly: strip, drop empties, keep first
occurrences in order. -/
theorem normalize_tags_eq (ts : List String) :
    normalize_tags ts = firstSeenDedup (cleanTags ts) := by
  unfold normalize_tags
  rw [normTagsGo_eq ts [] [] (by simp)]
  simp [List.filter_eq_self]

theorem mem_normalize_tags {x : String} {ts : List String}
    (h : x ∈ normalize_tags ts) : pyStrip x = x ∧ x ≠ "" := by
  rw [normalize_tags_eq] at h
  exact mem_cleanTags (mem_firstSeenDedup.mp h)

theorem nodup_normalize_tags (ts : List String) : (normalize_tags ts).Nodup := by
  rw [normalize_tags_eq]; exact nodup_firstSeenDedup _

/-! ## Further helpers and concrete fixtures -/

theorem pyTruthy_eq_true {o : Option String} :
    pyTruthy o = true ↔ ∃ s, o = some s ∧ s ≠ "" := by
  cases o <;> simp [pyTruthy]

theorem ifTruthy_ne_empty (T : Option String) (url : String) (hurl : url ≠ "") :
    (if pyTruthy T = true then T.getD "" else url) ≠ "" := by
  by_cases h : pyTruthy T = true
  · rw [if_pos h]
    obtain ⟨s, hs, hsne⟩ := pyTruthy_eq_true.mp h
    rw [hs]
    simpa using hsne
  · rw [if_neg h]
    exact hurl

theorem pyLower_fix_of_mem {x : String} {all : List String}
    (h : x ∈ normalize_tags (all.map (fun t => pyLower (pyStrip t)))) :
    pyLower x = x := by
  rw [normalize_tags_eq] at h
  have h2 := mem_firstSeenDedup.mp h
  unfold cleanTags at h2
  have h3 := (List.mem_filter.mp h2).1
  obtain ⟨y, hy, rfl⟩ := List.mem_map.mp h3
  obtain ⟨t, _, rfl⟩ := List.mem_map.mp hy
  exact pyLower_pyStrip_pyLower (pyStrip t)

theorem findFree_succ (files : List String) (folder base : String) (n i : Nat) :
    findFree files folder base (n + 1) i =
      if folder ++ "/" ++ base ++ "-" ++ toString i ++ ".md" ∈ files then
        findFree files folder base n (i + 1)
      else some (folder ++ "/" ++ base ++ "-" ++ toString i ++ ".md") := rfl

theorem findFree_not_mem (files : List String) (folder base : String) :
    ∀ (fuel i : Nat) (p : String), findFree files folder base fuel i = some p → p ∉ files := by
  intro fuel
  induction fuel with
  | zero => intro i p h; simp [findFree] at h
  | succ n ih =>
    intro i p h
    rw [findFree_succ] at h
    by_cases hc : folder ++ "/" ++ base ++ "-" ++ toString i ++ ".md" ∈ files
    · rw [if_pos hc] at h
      exact ih _ p h
    · rw [if_neg hc] at h
      cases h
      exact hc

/-- A page with no extractable signal at all. -/
def emptyPage : PageSignals :=
  { canonicalHref := none, ogUrlContent := none, ogTitleContent := none, docTitle := none,
    ldScripts := [], metaAuthorName := none, metaAuthorArticle := none, metaPubTime := none,
    metaDateName := none, metaDescName := none, ogDescContent := none,
    contentText := "", contentMd := "" }

/-- A page carrying `<meta property="og:title" content="X">` and
`<link rel="canonical" href="Y">` and no `og:url`. -/
def ogPage : PageSignals :=
  { emptyPage with ogTitleContent := some "X", canonicalHref := some "Y" }

/-- A metadata record whose title slugifies to `my-article` and that
has no published date. -/
def myArticleMeta : Meta :=
  { title := "My Article!", author := none, published_date := none, summary := none,
    source_url := "https://example.com/a", word_count := 3, reading_time_min := 1,
    tags := [], status := none }

/-- A metadata record whose title slugifies to the empty string. -/
def degenerateTitleMeta : Meta := { myArticleMeta with title := "!!!" }

/-! ## Claim C1 -/

/-- C1, refuted: a live fetch failing with `HTTPError` 404 does *not*
degrade to a fallback note — `process_url_with_fallbacks` re-raises
(`else: raise`) and `main` files the record under `failed`. -/
theorem claim_C1_counterexample :
    process_url_with_fallbacks (.httpError 404) (.error ()) (fun _ => .error ())
        "https://example.com/x" [] ⟨some "", some "", []⟩ (2024, 1) []
      = .error (.httpError 404)
    ∧ mainProcessItem (process_url_with_fallbacks (.httpError 404) (.error ())
        (fun _ => .error ()) "https://example.com/x" [] ⟨some "", some "", []⟩ (2024, 1) [])
      = "failed" := by
  exact ⟨rfl, rfl⟩

/-- C1 (amended): a live fetch failing with an `HTTPError` status other
than 403 is re-raised by `process_url_with_fallbacks`, and `main`
records the record as a record-level failure; only a non-`HTTPError`
exception (network error, timeout, retry-budget exhaustion) degrades
the record to a fallback note with status `fallback`. -/
theorem claim_C1_amended :
    (∀ (s : Nat), s ≠ 403 →
      ∀ (availResp : Except Unit AvailJson) (fetchSnap : String → Except Unit PageSignals)
        (url : String) (tags : List String) (csv_row : CsvMeta)
        (now : Nat × Nat) (files : List String),
        process_url_with_fallbacks (.httpError s) availResp fetchSnap url tags csv_row now files
          = .error (.httpError s)
        ∧ mainProcessItem (process_url_with_fallbacks (.httpError s) availResp fetchSnap
            url tags csv_row now files) = "failed")
    ∧ (∀ (availResp : Except Unit AvailJson) (fetchSnap : String → Except Unit PageSignals)
        (url : String) (tags : List String) (csv_row : CsvMeta)
        (now : Nat × Nat) (files : List String),
        ∃ p, process_url_with_fallbacks .otherError availResp fetchSnap url tags csv_row now files
            = .ok (p, "fallback")
          ∧ mainProcessItem (process_url_with_fallbacks .otherError availResp fetchSnap
              url tags csv_row now files) = "fallback") := by
  constructor
  · intro s hs availResp fetchSnap url tags csv_row now files
    have he : process_url_with_fallbacks (.httpError s) availResp fetchSnap
        url tags csv_row now files = .error (.httpError s) := by
      simp [process_url_with_fallbacks, hs]
    exact ⟨he, by rw [he]; rfl⟩
  · intro availResp fetchSnap url tags csv_row now files
    exact ⟨_, rfl, rfl⟩

theorem claim_C1_witness :
    process_url_with_fallbacks (.httpError 410) (.error ()) (fun _ => .error ())
        "https://example.com/x" [] ⟨some "", some "", []⟩ (2024, 1) []
      = .error (.httpError 410)
    ∧ mainProcessItem (process_url_with_fallbacks (.httpError 410) (.error ())
        (fun _ => .error ()) "https://example.com/x" [] ⟨some "", some "", []⟩ (2024, 1) [])
      = "failed" :=
  claim_C1_amended.1 410 (by decide) (.error ()) (fun _ => .error ())
    "https://example.com/x" [] ⟨some "", some "", []⟩ (2024, 1) []

/-! ## Claim C2 -/

/-- C2, refuted: `normalize_tags` itself deduplicates on the exact
stripped strings and does not case-fold — on `["AI", "ai"]` it keeps
both, although they are equal after case-folding. -/
theorem claim_C2_counterexample :
    normalize_tags ["AI", "ai"] = ["AI", "ai"]
    ∧ pyLower "AI" = pyLower "ai" ∧ "AI" ≠ "ai" := by
  exact ⟨by decide, by decide, by decide⟩

/-- C2 (amended): `normalize_tags` alone deduplicates on exact stripped
strings; case-folding happens one line earlier in the pipeline, which
maps `t.strip().lower()` over the concatenated tag sources before
calling `normalize_tags`.  That composition returns a sequence with no
two elements equal after case-folding, every entry stripped and
non-empty (whitespace-only entries dropped), in first-seen order. -/
theorem claim_C2_amended :
    ∀ (meta_tags tags csv_tags : List String),
      (((normalize_tags ((meta_tags ++ tags ++ csv_tags).map
          (fun t => pyLower (pyStrip t)))).map pyLower).Nodup)
      ∧ (∀ x ∈ normalize_tags ((meta_tags ++ tags ++ csv_tags).map
          (fun t => pyLower (pyStrip t))), pyStrip x = x ∧ x ≠ "")
      ∧ normalize_tags ((meta_tags ++ tags ++ csv_tags).map (fun t => pyLower (pyStrip t)))
          = firstSeenDedup (cleanTags ((meta_tags ++ tags ++ csv_tags).map
              (fun t => pyLower (pyStrip t)))) := by
  intro meta_tags tags csv_tags
  refine ⟨?_, fun x hx => mem_normalize_tags hx, normalize_tags_eq _⟩
  have hfix : (normalize_tags ((meta_tags ++ tags ++ csv_tags).map
      (fun t => pyLower (pyStrip t)))).map pyLower
      = normalize_tags ((meta_tags ++ tags ++ csv_tags).map (fun t => pyLower (pyStrip t))) := by
    rw [List.map_congr_left (fun a ha => pyLower_fix_of_mem ha)]
    simp
  rw [hfix]
  exact nodup_normalize_tags _

theorem claim_C2_witness :
    (((normalize_tags (([] ++ ["AI"] ++ ["ai"]).map (fun t => pyLower (pyStrip t)))).map
        pyLower).Nodup)
    ∧ (pyStrip "ai" = "ai" ∧ "ai" ≠ "") :=
  ⟨(claim_C2_amended [] ["AI"] ["ai"]).1,
   (claim_C2_amended [] ["AI"] ["ai"]).2.1 "ai" (by decide)⟩

/-! ## Claim C3 -/

/-- C3, refuted: `extract_meta` computes
`max(1, round(word_count / 225))` unconditionally, so HTML whose
readable content has zero words still yields `reading_time_minutes = 1`,
not `0`. -/
theorem claim_C3_counterexample :
    (extract_meta emptyPage "https://example.com/a").meta.word_count = 0
    ∧ (extract_meta emptyPage "https://example.com/a").meta.reading_time_min = 1
    ∧ (1 : Nat) ≠ 0 := by
  exact ⟨rfl, rfl, by decide⟩

/-- C3 (amended): every extractor-produced record satisfies
`reading_time_minutes = max(1, round(word_count / 225))` — hence
`reading_time_minutes ≥ 1` even at zero words — while only the
fallback note carries `word_count = 0` with `reading_time_minutes = 0`. -/
theorem claim_C3_amended :
    (∀ (p : PageSignals) (url : String),
        (extract_meta p url).meta.reading_time_min
          = max 1 (pyRoundDiv225 ((extract_meta p url).meta.word_count))
        ∧ 1 ≤ (extract_meta p url).meta.reading_time_min)
    ∧ (∀ (url : String) (csv : CsvMeta),
        (create_fallback_note url csv).meta.word_count = 0
        ∧ (create_fallback_note url csv).meta.reading_time_min = 0) := by
  refine ⟨fun p url => ⟨rfl, ?_⟩, fun url csv => ⟨rfl, rfl⟩⟩
  show 1 ≤ max 1 (pyRoundDiv225 (countWords p.contentText))
  exact le_max_left _ _

/-! ## Claim C4 -/

/-- C4, refuted in its second half: the metadata record built by
`create_fallback_note` carries `status = "unavailable"`, not
`"fallback"` (the `"fallback"` value is only the pipeline-level status
returned alongside). -/
theorem claim_C4_counterexample :
    (create_fallback_note "https://example.com/a" ⟨some "A title", some "", []⟩).meta.status
      = some "unavailable"
    ∧ (some "unavailable" : Option String) ≠ some "fallback" := by
  exact ⟨rfl, by decide⟩

/-- C4 (amended): the pipeline status returned by
`process_url_with_fallbacks` always lies in `{success, archived,
fallback}`; but the `status` *field* of the metadata record is
`"unavailable"` on fallback notes and absent on extractor-produced
records. -/
theorem claim_C4_amended :
    (∀ (fetchRes : FetchOutcome) (availResp : Except Unit AvailJson)
        (fetchSnap : String → Except Unit PageSignals)
        (url : String) (tags : List String) (csv_row : CsvMeta)
        (now : Nat × Nat) (files : List String) (p : Option String) (st : String),
        process_url_with_fallbacks fetchRes availResp fetchSnap url tags csv_row now files
          = .ok (p, st) →
        st = "success" ∨ st = "archived" ∨ st = "fallback")
    ∧ (∀ (url : String) (csv : CsvMeta),
        (create_fallback_note url csv).meta.status = some "unavailable")
    ∧ (∀ (p : PageSignals) (url : String), (extract_meta p url).meta.status = none) := by
  refine ⟨?_, fun url csv => rfl, fun p url => rfl⟩
  intro fetchRes availResp fetchSnap url tags csv_row now files p st h
  cases fetchRes with
  | success page finalUrl =>
    simp [process_url_with_fallbacks] at h
    exact Or.inl h.2.symm
  | httpError s =>
    by_cases h403 : s = 403
    · subst h403
      cases hw : try_wayback_machine (α := PageSignals) availResp fetchSnap with
      | none =>
        simp [process_url_with_fallbacks, hw] at h
        exact Or.inr (Or.inr h.2.symm)
      | some pr =>
        simp [process_url_with_fallbacks, hw] at h
        exact Or.inr (Or.inl h.2.symm)
    · simp [process_url_with_fallbacks, h403] at h
  | otherError =>
    simp [process_url_with_fallbacks] at h
    exact Or.inr (Or.inr h.2.symm)

theorem claim_C4_witness :
    ("fallback" = "success" ∨ "fallback" = "archived" ∨ ("fallback" : String) = "fallback") :=
  claim_C4_amended.1 .otherError (.error ()) (fun _ => .error ())
    "https://example.com/x" [] ⟨some "", some "", []⟩ (2024, 1) [] _ "fallback" rfl

/-! ## Claim C5 -/

/-- C5, refuted: the reader always stores a `title` key (possibly
`""`), and `csv_metadata.get("title", url)` falls back to the URL only
when the key is *absent* — so a CSV without a title column yields a
fallback note whose title is the empty string. -/
theorem claim_C5_counterexample :
    read_urls_from_csv_enhanced ⟨false, false, false⟩ [⟨"https://example.com/a", "", "", ""⟩]
      = [("https://example.com/a", [], ⟨some "", some "", []⟩)]
    ∧ (create_fallback_note "https://example.com/a" ⟨some "", some "", []⟩).meta.title = "" := by
  exact ⟨rfl, rfl⟩

/-- C5 (amended): `create_fallback_note` titles the note with the
inline-metadata `title` value whenever the key is present — even when
that value is empty — and falls back to the URL only when the key is
absent; on the extractor path the title is non-empty whenever the
URL is. -/
theorem claim_C5_amended :
    (∀ (url : String) (m : CsvMeta), m.title = none →
        (create_fallback_note url m).meta.title = url)
    ∧ (∀ (url : String) (m : CsvMeta) (t : String), m.title = some t →
        (create_fallback_note url m).meta.title = t)
    ∧ (∀ (p : PageSignals) (url : String), url ≠ "" →
        (extract_meta p url).meta.title ≠ "") := by
  refine ⟨fun url m h => by simp [create_fallback_note, h],
          fun url m t h => by simp [create_fallback_note, h], ?_⟩
  intro p url hurl
  exact ifTruthy_ne_empty _ url hurl

theorem claim_C5_witness :
    (create_fallback_note "https://example.com/a" ⟨none, none, []⟩).meta.title
      = "https://example.com/a" :=
  claim_C5_amended.1 "https://example.com/a" ⟨none, none, []⟩ rfl

/-! ## Claim C6 -/

/-- C6: on a successful fetch, `og:title` wins the title (then the
document `<title>`, then the URL), and a non-empty `og:url` wins the
canonical URL over the `canonical` link, else the request URL — in
particular a page with `og:title = X`, `canonical = Y` and no `og:url`
yields `title = X`, `source_url = Y`. -/
theorem claim_C6 :
    (∀ (p : PageSignals) (url X Y : String),
        p.ogTitleContent = some X → pyStrip X = X → X ≠ "" →
        p.canonicalHref = some Y → pyStrip Y = Y → Y ≠ "" →
        p.ogUrlContent = none →
        (extract_meta p url).meta.title = X ∧ (extract_meta p url).meta.source_url = Y)
    ∧ (∀ (p : PageSignals) (url D : String),
        p.ogTitleContent = none → p.docTitle = some D → pyStrip D = D → D ≠ "" →
        (extract_meta p url).meta.title = D)
    ∧ (∀ (p : PageSignals) (url : String),
        p.ogTitleContent = none → p.docTitle = none →
        (extract_meta p url).meta.title = url)
    ∧ (∀ (p : PageSignals) (url Z : String),
        p.ogUrlContent = some Z → pyStrip Z = Z → Z ≠ "" →
        (extract_meta p url).meta.source_url = Z)
    ∧ (∀ (p : PageSignals) (url : String),
        p.canonicalHref = none → p.ogUrlContent = none →
        (extract_meta p url).meta.source_url = url) := by
  refine ⟨?_, ?_, ?_, ?_, ?_⟩
  · intro p url X Y hX hXs hXne hY hYs hYne hOg
    constructor
    · have h1 : pyTruthy (some X) = true := by simp [pyTruthy, hXne]
      simp [extract_meta, hX, hXs, h1]
    · have h1 : pyTruthy (some Y) = true := by simp [pyTruthy, hYne]
      simp [extract_meta, hY, hYs, hYne, hOg, h1, pyTruthy]
  · intro p url D hX hD hDs hDne
    have h1 : pyTruthy (some D) = true := by simp [pyTruthy, hDne]
    simp [extract_meta, hX, hD, hDs, hDne, h1, pyTruthy]
  · intro p url hX hD
    simp [extract_meta, hX, hD, pyTruthy]
  · intro p url Z hZ hZs hZne
    have h1 : pyTruthy (some Z) = true := by simp [pyTruthy, hZne]
    simp [extract_meta, hZ, hZs, hZne, h1, pyTruthy]
  · intro p url hC hOg
    simp [extract_meta, hC, hOg, pyTruthy]

theorem claim_C6_witness :
    (extract_meta ogPage "https://example.com/q").meta.title = "X"
    ∧ (extract_meta ogPage "https://example.com/q").meta.source_url = "Y" :=
  claim_C6.1 ogPage "https://example.com/q" "X" "Y" rfl (by decide) (by decide)
    rfl (by decide) (by decide) rfl

/-! ## Claim C7 -/

theorem ite_findFree_not_mem (files : List String) (folder base out p : String)
    (h : (if out ∈ files then findFree files folder base (files.length + 1) 2 else some out)
      = some p) : p ∉ files := by
  by_cases hmem : out ∈ files
  · rw [if_pos hmem] at h
    exact findFree_not_mem files folder base _ _ p h
  · rw [if_neg hmem] at h
    cases h
    exact hmem

theorem decide_out_path_not_mem (now : Nat × Nat) (files : List String) (meta : Meta)
    (p : String) (h : decide_out_path now files meta = some p) : p ∉ files := by
  simp only [decide_out_path] at h
  exact ite_findFree_not_mem files _ _ _ p h

/-- C7: `decide_out_path` never returns a path that already exists
(so successive calls, each written before the next, return pairwise
distinct paths); for a title slugifying to `my-article` with no
published date the first three calls return `my-article.md`,
`my-article-2.md`, `my-article-3.md`; a degenerate slug falls back to
the fixed basename `nota`. -/
theorem claim_C7 :
    (∀ (now : Nat × Nat) (files : List String) (meta : Meta) (p : String),
        decide_out_path now files meta = some p → p ∉ files)
    ∧ (∀ (now : Nat × Nat) (files : List String) (meta : Meta) (p q : String),
        decide_out_path now files meta = some p →
        decide_out_path now (p :: files) meta = some q → q ≠ p)
    ∧ decide_out_path (2024, 1) [] myArticleMeta = some "2024/01/my-article.md"
    ∧ decide_out_path (2024, 1) ["2024/01/my-article.md"] myArticleMeta
        = some "2024/01/my-article-2.md"
    ∧ decide_out_path (2024, 1) ["2024/01/my-article.md", "2024/01/my-article-2.md"]
        myArticleMeta = some "2024/01/my-article-3.md"
    ∧ decide_out_path (2024, 1) [] degenerateTitleMeta = some "2024/01/nota.md" := by
  refine ⟨fun now files meta p h => decide_out_path_not_mem now files meta p h,
    ?_, by decide, by decide, by decide, by decide⟩
  intro now files meta p q hp hq heq
  have hnot := decide_out_path_not_mem now (p :: files) meta q hq
  exact hnot (heq ▸ List.mem_cons_self p files)

theorem claim_C7_witness :
    decide_out_path (2024, 1) ["2024/01/my-article.md"] myArticleMeta
      = some "2024/01/my-article-2.md"
    ∧ "2024/01/my-article-2.md" ∉ ["2024/01/my-article.md"] :=
  ⟨by decide,
   claim_C7.1 (2024, 1) ["2024/01/my-article.md"] myArticleMeta "2024/01/my-article-2.md"
     (by decide)⟩

/-! ## Claim C8 -/

/-- C8: `try_wayback_machine` never propagates an exception — it
returns `some (body, archived_url)` exactly when the availability
endpoint answered with a truthy snapshot record carrying that URL and
its retrieval succeeded, and `none` in every other case (endpoint
unreachable or malformed, no snapshot, snapshot not available, missing
`url` key, snapshot fetch failure). -/
theorem claim_C8 :
    ∀ (availResp : Except Unit AvailJson) (fetchSnap : String → Except Unit String)
      (body aurl : String),
      try_wayback_machine availResp fetchSnap = some (body, aurl)
        ↔ ∃ (data : AvailJson) (c : WaybackClosest),
            availResp = .ok data
            ∧ data.archived_snapshots = some (some c)
            ∧ c.available = true
            ∧ c.url = some aurl
            ∧ fetchSnap aurl = .ok body := by
  intro availResp fetchSnap body aurl
  constructor
  · intro h
    cases availResp with
    | error e => simp [try_wayback_machine] at h
    | ok data =>
      cases hsnap : data.archived_snapshots with
      | none => simp [try_wayback_machine, hsnap] at h
      | some closest =>
        cases closest with
        | none => simp [try_wayback_machine, hsnap] at h
        | some c =>
          cases hav : c.available with
          | false => simp [try_wayback_machine, hsnap, hav] at h
          | true =>
            cases hurl : c.url with
            | none => simp [try_wayback_machine, hsnap, hav, hurl] at h
            | some u =>
              cases hf : fetchSnap u with
              | error e => simp [try_wayback_machine, hsnap, hav, hurl, hf] at h
              | ok b =>
                have hbu : b = body ∧ u = aurl := by
                  simpa [try_wayback_machine, hsnap, hav, hurl, hf] using h
                obtain ⟨rfl, rfl⟩ := hbu
                exact ⟨data, c, rfl, hsnap, hav, hurl, hf⟩
  · rintro ⟨data, c, rfl, hsnap, hav, hurl, hf⟩
    simp [try_wayback_machine, hsnap, hav, hurl, hf]

/-! ## Claim C9 -/

/-- C9: `normalize_tags` is idempotent — its output is stripped,
duplicate-free and empty-free, and a second pass leaves such a list
unchanged. -/
theorem claim_C9 :
    ∀ (ts : List String), normalize_tags (normalize_tags ts) = normalize_tags ts := by
  intro ts
  have hmem : ∀ x ∈ normalize_tags ts, pyStrip x = x ∧ x ≠ "" :=
    fun x hx => mem_normalize_tags hx
  rw [normalize_tags_eq (normalize_tags ts)]
  have h1 : (normalize_tags ts).map pyStrip = normalize_tags ts := by
    rw [List.map_congr_left (fun a ha => (hmem a ha).1)]
    simp
  have hclean : cleanTags (normalize_tags ts) = normalize_tags ts := by
    unfold cleanTags
    rw [h1]
    exact List.filter_eq_self.mpr (fun a ha => by simp [(hmem a ha).2])
  rw [hclean, firstSeenDedup_of_nodup (nodup_normalize_tags ts)]

/-! ## Claim C10 -/

theorem read_urls_cons (cols : CsvCols) (row : CsvRow) (rest : List CsvRow) :
    read_urls_from_csv_enhanced cols (row :: rest) =
      if pyStrip row.url = "" then read_urls_from_csv_enhanced cols rest
      else (pyStrip row.url, normalize_tags (parse_tags cols row),
        ⟨some (if cols.hasTitle then row.title else ""),
         some (if cols.hasDesc then row.description else ""),
         parse_tags cols row⟩) :: read_urls_from_csv_enhanced cols rest := rfl

/-- C10: the reader silently skips every row whose `url` cell is
missing, empty or whitespace-only — every returned record has a
non-empty `url`, the output never exceeds the row count, and on a
concrete file with a whitespace-only `url` row the output is strictly
shorter than the input. -/
theorem claim_C10 :
    (∀ (cols : CsvCols) (rows : List CsvRow) (item : String × List String × CsvMeta),
        item ∈ read_urls_from_csv_enhanced cols rows → item.1 ≠ "")
    ∧ (∀ (cols : CsvCols) (rows : List CsvRow),
        (read_urls_from_csv_enhanced cols rows).length ≤ rows.length)
    ∧ (read_urls_from_csv_enhanced ⟨false, false, false⟩
        [⟨"   ", "", "", ""⟩, ⟨"https://example.com/a", "", "", ""⟩]).length
      < ([⟨"   ", "", "", ""⟩, ⟨"https://example.com/a", "", "", ""⟩] : List CsvRow).length := by
  refine ⟨?_, ?_, by decide⟩
  · intro cols rows
    induction rows with
    | nil => intro item h; simp [read_urls_from_csv_enhanced] at h
    | cons row rest ih =>
      intro item h
      rw [read_urls_cons] at h
      by_cases hu : pyStrip row.url = ""
      · rw [if_pos hu] at h
        exact ih item h
      · rw [if_neg hu] at h
        rcases List.mem_cons.mp h with heq | hmem
        · rw [heq]
          simpa using hu
        · exact ih item hmem
  · intro cols rows
    induction rows with
    | nil => simp [read_urls_from_csv_enhanced]
    | cons row rest ih =>
      rw [read_urls_cons]
      by_cases hu : pyStrip row.url = ""
      · rw [if_pos hu]
        exact le_trans ih (by simp)
      · rw [if_neg hu]
        simpa using ih

theorem claim_C10_witness :
    (("https://example.com/a", ([] : List String),
        (⟨some "", some "", []⟩ : CsvMeta)) : String × List String × CsvMeta).1 ≠ "" :=
  claim_C10.1 ⟨false, false, false⟩ [⟨"https://example.com/a", "", "", ""⟩]
    ("https://example.com/a", [], ⟨some "", some "", []⟩) (by decide)

end LinksToNotes
